import Mathlib

/-!
Verification of the ACP provider adapter (crates/goose/src/acp).

The Rust sources `acp/common.rs` and `acp/provider.rs` are shallowly embedded
below: pure functions become Lean functions, the mutable `HashSet<String>` of
rejected tool calls becomes an explicit `Finset String` threaded through the
operations, and the stream loop becomes a recursion over the list of updates
the protocol task delivered.
-/

namespace AcpSpec

/-- `sacp::schema::PermissionOptionKind`: the four permission option kinds the
peer can advertise. -/
inductive PermissionOptionKind where
  | AllowOnce
  | AllowAlways
  | RejectOnce
  | RejectAlways
deriving DecidableEq, Repr

/-- `sacp::schema::PermissionOption`: one peer-advertised option, identified by
`option_id` and carrying an advertised `kind`. -/
structure PermissionOption where
  option_id : String
  kind : PermissionOptionKind
deriving DecidableEq, Repr

/-- `sacp::schema::ToolCallStatus`: lifecycle status of a tool call as reported
by the peer. -/
inductive ToolCallStatus where
  | Pending
  | InProgress
  | Completed
  | Failed
deriving DecidableEq, Repr

/-- `PermissionMapping` from `acp/common.rs`: optional preferred option ids for
allow and reject decisions, and the status under which the peer reports a
rejected tool call. -/
structure PermissionMapping where
  allow_option_id : Option String
  reject_option_id : Option String
  rejected_tool_status : ToolCallStatus
deriving DecidableEq, Repr

/-- `PermissionMapping::default()` in `acp/common.rs`. -/
def PermissionMapping.default : PermissionMapping :=
  { allow_option_id := none
    reject_option_id := none
    rejected_tool_status := ToolCallStatus.Failed }

/-- `PermissionDecision` from `acp/common.rs`. -/
inductive PermissionDecision where
  | AllowAlways
  | AllowOnce
  | RejectAlways
  | RejectOnce
  | Cancel
deriving DecidableEq, Repr

/-- `PermissionDecision::should_record_rejection` from `acp/common.rs`. -/
def PermissionDecision.should_record_rejection : PermissionDecision → Bool
  | PermissionDecision.RejectAlways => true
  | PermissionDecision.RejectOnce => true
  | PermissionDecision.Cancel => true
  | _ => false

/-- Shallow model of `serde_json::Value`: the adapter only asks whether a raw
input is a JSON object (`as_object`), and otherwise carries the value
verbatim, so leaf values are collapsed to their string rendering. -/
inductive Json where
  | obj (fields : List (String × String))
  | nonObj
deriving DecidableEq, Repr

/-- `serde_json::Value::as_object`. -/
def Json.as_object : Json → Option (List (String × String))
  | Json.obj fields => some fields
  | Json.nonObj => none

/-- `sacp::schema::ContentBlock` as the adapter destructures it: a text block
or anything else (image, audio, resource link, ...). -/
inductive ContentBlock where
  | Text (text : String)
  | NonText
deriving DecidableEq, Repr

/-- `sacp::schema::ToolCallContent` as the adapter destructures it: a content
block, or anything else (diff, terminal). -/
inductive ToolCallContent where
  | Content (content : ContentBlock)
  | NonContent
deriving DecidableEq, Repr

/-- The fields of `sacp::schema::ToolCallUpdateFields` the adapter reads:
`status`, `content`, `title` and `raw_input`, each optional. -/
structure ToolCallUpdateFields where
  status : Option ToolCallStatus
  content : Option (List ToolCallContent)
  title : Option String
  raw_input : Option Json
deriving DecidableEq, Repr

/-- The part of `sacp::schema::RequestPermissionRequest` the adapter reads: the
tool-call id of the request, the tool-call update fields, and the offered
options. -/
structure RequestPermissionRequest where
  tool_call_id : String
  fields : ToolCallUpdateFields
  options : List PermissionOption
deriving DecidableEq, Repr

/-- `sacp::schema::RequestPermissionOutcome`. -/
inductive RequestPermissionOutcome where
  | Selected (option_id : String)
  | Cancelled
deriving DecidableEq, Repr

/-- `select_option_id` from `acp/common.rs`: honor a configured preferred id
when it is among the offered options, otherwise pick the first option of the
requested kind. -/
def select_option_id (options : List PermissionOption) (preferred_id : Option String)
    (kind : PermissionOptionKind) : Option String :=
  match preferred_id with
  | some pid =>
      if options.any (fun opt => opt.option_id = pid) then
        some pid
      else
        (options.find? (fun opt => opt.kind = kind)).map (fun opt => opt.option_id)
  | none =>
      (options.find? (fun opt => opt.kind = kind)).map (fun opt => opt.option_id)

/-- `map_permission_response` from `acp/common.rs`: translate an internal
permission decision into the peer's option vocabulary. -/
def map_permission_response (mapping : PermissionMapping)
    (request : RequestPermissionRequest) (decision : PermissionDecision) :
    RequestPermissionOutcome :=
  let selected_id : Option String :=
    match decision with
    | PermissionDecision.AllowAlways =>
        (select_option_id request.options mapping.allow_option_id
          PermissionOptionKind.AllowAlways).orElse (fun _ =>
            select_option_id request.options mapping.allow_option_id
              PermissionOptionKind.AllowOnce)
    | PermissionDecision.AllowOnce =>
        (select_option_id request.options mapping.allow_option_id
          PermissionOptionKind.AllowOnce).orElse (fun _ =>
            select_option_id request.options mapping.allow_option_id
              PermissionOptionKind.AllowAlways)
    | PermissionDecision.RejectAlways =>
        (select_option_id request.options mapping.reject_option_id
          PermissionOptionKind.RejectAlways).orElse (fun _ =>
            select_option_id request.options mapping.reject_option_id
              PermissionOptionKind.RejectOnce)
    | PermissionDecision.RejectOnce =>
        (select_option_id request.options mapping.reject_option_id
          PermissionOptionKind.RejectOnce).orElse (fun _ =>
            select_option_id request.options mapping.reject_option_id
              PermissionOptionKind.RejectAlways)
    | PermissionDecision.Cancel => none
  match selected_id with
  | some option_id => RequestPermissionOutcome.Selected option_id
  | none => RequestPermissionOutcome.Cancelled

/-- The kind a non-Cancel decision prefers (step 2 of the mapper algorithm). -/
def preferredKind : PermissionDecision → PermissionOptionKind
  | PermissionDecision.AllowAlways => PermissionOptionKind.AllowAlways
  | PermissionDecision.AllowOnce => PermissionOptionKind.AllowOnce
  | PermissionDecision.RejectAlways => PermissionOptionKind.RejectAlways
  | PermissionDecision.RejectOnce => PermissionOptionKind.RejectOnce
  | PermissionDecision.Cancel => PermissionOptionKind.AllowOnce

/-- The fallback kind of a non-Cancel decision (once ↔ always). -/
def fallbackKind : PermissionDecision → PermissionOptionKind
  | PermissionDecision.AllowAlways => PermissionOptionKind.AllowOnce
  | PermissionDecision.AllowOnce => PermissionOptionKind.AllowAlways
  | PermissionDecision.RejectAlways => PermissionOptionKind.RejectOnce
  | PermissionDecision.RejectOnce => PermissionOptionKind.RejectAlways
  | PermissionDecision.Cancel => PermissionOptionKind.AllowOnce

/-- The configured preferred-id override relevant to a decision: the allow id
for allow decisions, the reject id for reject decisions. -/
def decisionPreferredId (mapping : PermissionMapping) : PermissionDecision → Option String
  | PermissionDecision.AllowAlways => mapping.allow_option_id
  | PermissionDecision.AllowOnce => mapping.allow_option_id
  | PermissionDecision.RejectAlways => mapping.reject_option_id
  | PermissionDecision.RejectOnce => mapping.reject_option_id
  | PermissionDecision.Cancel => none

/-- The ids of the offered options. -/
def optionIds (request : RequestPermissionRequest) : List String :=
  request.options.map (fun opt => opt.option_id)

/-! ### Update translation (`on_receive_notification` in `acp/provider.rs`) -/

/-- `sacp::schema::SessionUpdate` as the notification handler destructures it.
`AgentMessageChunk`/`AgentThoughtChunk` carry the `ContentChunk`'s content
block; every variant the handler does not match is `OtherUpdate`. -/
inductive SessionUpdate where
  | AgentMessageChunk (content : ContentBlock)
  | AgentThoughtChunk (content : ContentBlock)
  | ToolCall (tool_call_id : String) (title : String) (raw_input : Option Json)
  | ToolCallUpdate (tool_call_id : String) (fields : ToolCallUpdateFields)
  | OtherUpdate
deriving DecidableEq, Repr

/-- `AcpUpdate` from `acp/provider.rs`: the internal streaming vocabulary. The
permission request's one-shot reply channel is left implicit; `Complete`
carries the peer's stop reason (ignored by the stream loop). -/
inductive AcpUpdate where
  | Text (text : String)
  | Thought (text : String)
  | ToolCallStart (id : String) (title : String) (raw_input : Option Json)
  | ToolCallComplete (id : String) (status : ToolCallStatus)
      (content : List ToolCallContent)
  | PermissionRequest (request : RequestPermissionRequest)
  | Complete (stop_reason : String)
  | Error (text : String)
deriving DecidableEq, Repr

/-- The body of the `on_receive_notification` callback in
`run_protocol_loop_with_transport` (`acp/provider.rs`): which internal update,
if any, a session update is forwarded as. -/
def translate_notification : SessionUpdate → Option AcpUpdate
  | SessionUpdate.AgentMessageChunk (ContentBlock.Text text) =>
      some (AcpUpdate.Text text)
  | SessionUpdate.AgentThoughtChunk (ContentBlock.Text text) =>
      some (AcpUpdate.Thought text)
  | SessionUpdate.ToolCall tool_call_id title raw_input =>
      some (AcpUpdate.ToolCallStart tool_call_id title raw_input)
  | SessionUpdate.ToolCallUpdate tool_call_id fields =>
      match fields.status with
      | some status =>
          some (AcpUpdate.ToolCallComplete tool_call_id status
            (fields.content.getD []))
      | none => none
  | _ => none

/-- The notification handler applied to a whole inbound sequence, in the
peer's send order. -/
def translate_notifications (updates : List SessionUpdate) : List AcpUpdate :=
  updates.filterMap translate_notification

/-! ### Rejection bookkeeping (`acp/provider.rs`) -/

/-- `tool_call_is_error` from `acp/provider.rs`. The mutable
`HashSet<String>` of rejected tool calls is threaded explicitly: the result is
the `is_error` flag together with the updated set (the id is removed). -/
def tool_call_is_error (rejected_tool_calls : Finset String)
    (mapping : PermissionMapping) (tool_call_id : String)
    (status : ToolCallStatus) : Bool × Finset String :=
  let was_rejected := decide (tool_call_id ∈ rejected_tool_calls)
  let rejected := rejected_tool_calls.erase tool_call_id
  let is_error :=
    match status with
    | ToolCallStatus.Failed => true
    | ToolCallStatus.Completed =>
        was_rejected &&
          decide (mapping.rejected_tool_status = ToolCallStatus.Completed)
    | _ => false
  (is_error, rejected)

/-- `permission_response` from `acp/provider.rs`: record the rejection when
the decision is a rejecting one, then map the decision to a response. -/
def permission_response (mapping : PermissionMapping)
    (rejected_tool_calls : Finset String) (request : RequestPermissionRequest)
    (decision : PermissionDecision) :
    RequestPermissionOutcome × Finset String :=
  let rejected :=
    if decision.should_record_rejection then
      insert request.tool_call_id rejected_tool_calls
    else
      rejected_tool_calls
  (map_permission_response mapping request decision, rejected)

/-- The two stream-loop events that touch the rejected-tool-calls set:
answering a permission request and processing a tool-call completion. -/
inductive AdapterEvent where
  | permissionAnswered (request : RequestPermissionRequest)
      (decision : PermissionDecision)
  | toolCallComplete (id : String) (status : ToolCallStatus)
deriving DecidableEq

/-- How one adapter event transforms the rejected-tool-calls set, following
`permission_response` and `tool_call_is_error`. -/
def rejected_step (mapping : PermissionMapping) (rejected : Finset String) :
    AdapterEvent → Finset String
  | AdapterEvent.permissionAnswered request decision =>
      (permission_response mapping rejected request decision).2
  | AdapterEvent.toolCallComplete id status =>
      (tool_call_is_error rejected mapping id status).2

/-- The rejected-tool-calls set after processing a sequence of adapter
events. -/
def rejected_run (mapping : PermissionMapping) (rejected : Finset String)
    (events : List AdapterEvent) : Finset String :=
  events.foldl (rejected_step mapping) rejected

/-! ### Messages (`conversation/message.rs` is not under `src/`) -/

/-- `rmcp::model::Role` as the adapter uses it. -/
inductive Role where
  | User
  | Assistant
deriving DecidableEq, Repr

/-- Message content items as the adapter constructs and reads them.
`NonText` stands for every content kind the adapter ignores (images, ...). -/
inductive MessageContent where
  | Text (text : String)
  | Thinking (text : String)
  | ToolRequest (id : String) (name : String)
      (arguments : List (String × String))
  | ToolResponse (id : String) (is_error : Bool) (content : List String)
  | ActionRequired (id : String) (title : String)
      (arguments : List (String × String)) (prompt : Option String)
  | NonText
deriving DecidableEq, Repr

/-- Modelled from the spec: the internal `Message` of
`conversation/message.rs`, which is not under `src/`. A message carries a
role, a content list, and visibility flags; `is_agent_visible` reads the
agent-visibility flag. -/
structure Message where
  role : Role
  user_visible : Bool
  agent_visible : Bool
  content : List MessageContent
deriving DecidableEq, Repr

/-- Modelled from the spec: `Message::assistant()`, visible to both the user
and the agent by default. -/
def Message.assistant : Message :=
  { role := Role.Assistant, user_visible := true, agent_visible := true
    content := [] }

/-- Modelled from the spec: `Message::is_agent_visible`. -/
def Message.is_agent_visible (m : Message) : Bool :=
  m.agent_visible

/-- Modelled from the spec: `with_text` appends a text content item. -/
def Message.with_text (m : Message) (text : String) : Message :=
  { m with content := m.content ++ [MessageContent.Text text] }

/-- Modelled from the spec: `with_thinking` appends a thinking content
item (the signature part of the Rust call is always empty here). -/
def Message.with_thinking (m : Message) (text : String) : Message :=
  { m with content := m.content ++ [MessageContent.Thinking text] }

/-- Modelled from the spec: `with_visibility user_visible agent_visible`. -/
def Message.with_visibility (m : Message) (u a : Bool) : Message :=
  { m with user_visible := u, agent_visible := a }

/-- Modelled from the spec: `user_only` marks the message visible to the user
but not to the agent. -/
def Message.user_only (m : Message) : Message :=
  { m with user_visible := true, agent_visible := false }

/-- Modelled from the spec: `with_tool_request` appends a tool request. -/
def Message.with_tool_request (m : Message) (id name : String)
    (arguments : List (String × String)) : Message :=
  { m with content := m.content ++ [MessageContent.ToolRequest id name arguments] }

/-- Modelled from the spec: `with_tool_response` appends a tool response. -/
def Message.with_tool_response (m : Message) (id : String) (is_error : Bool)
    (content : List String) : Message :=
  { m with content := m.content ++ [MessageContent.ToolResponse id is_error content] }

/-- Modelled from the spec: `with_action_required` appends an
action-required content item. -/
def Message.with_action_required (m : Message) (id title : String)
    (arguments : List (String × String)) (prompt : Option String) : Message :=
  { m with content :=
      m.content ++ [MessageContent.ActionRequired id title arguments prompt] }

/-! ### Prompt projection (`messages_to_prompt` in `acp/provider.rs`) -/

/-- `text_content` from `acp/provider.rs`. -/
def text_content (text : String) : ContentBlock :=
  ContentBlock.Text text

/-- `messages_to_prompt` from `acp/provider.rs`: the text parts of the latest
user-role, agent-visible message (`iter().rev().find(..)`), or nothing. -/
def messages_to_prompt (messages : List Message) : List ContentBlock :=
  let last_user := messages.reverse.find? (fun m =>
    decide (m.role = Role.User) && m.is_agent_visible)
  match last_user with
  | some message =>
      message.content.filterMap (fun c =>
        match c with
        | MessageContent.Text text => some (text_content text)
        | _ => none)
  | none => []

/-! ### Provider errors (`providers/errors.rs` is not under `src/`) -/

/-- Modelled from the spec: the provider error kinds of
`providers/errors.rs`, which is not under `src/`; §7 of the specification
lists the kinds the adapter surfaces, each carrying its message text. -/
inductive ProviderError where
  | RequestFailed (msg : String)
  | ContextLengthExceeded (msg : String)
  | ExecutionError (msg : String)
deriving DecidableEq, Repr

/-- Modelled from the spec: the display text of a provider error
(`to_string()` in `classify_error`), which `providers/errors.rs` (not under
`src/`) derives; we take it to be the error's message text. -/
def ProviderError.message : ProviderError → String
  | ProviderError.RequestFailed msg => msg
  | ProviderError.ContextLengthExceeded msg => msg
  | ProviderError.ExecutionError msg => msg

/-- Whether a provider error is of the context-length-exceeded kind. -/
def ProviderError.isContextLengthExceeded : ProviderError → Bool
  | ProviderError.ContextLengthExceeded _ => true
  | _ => false

/-- Whether the first character list is a prefix of the second
(`str::starts_with` over characters). -/
def charsPrefix : List Char → List Char → Bool
  | [], _ => true
  | _ :: _, [] => false
  | a :: as, b :: bs => decide (a = b) && charsPrefix as bs

/-- Whether the first character list occurs contiguously in the second. -/
def charsContains (needle : List Char) : List Char → Bool
  | [] => needle.isEmpty
  | b :: bs => charsPrefix needle (b :: bs) || charsContains needle bs

/-- Rust's `str::contains` for a literal pattern: substring containment. -/
def contains_substr (haystack needle : String) : Bool :=
  charsContains needle.data haystack.data

/-- `classify_error` from `acp/provider.rs`: map messages mentioning a context
overflow to the context-length-exceeded kind, pass everything else through. -/
def classify_error (e : ProviderError) : ProviderError :=
  let msg := e.message
  if contains_substr msg "context window" || contains_substr msg "too long"
      || contains_substr msg "too many tokens" then
    ProviderError.ContextLengthExceeded msg
  else
    e

/-! ### The stream loop (`AcpProvider::stream` in `acp/provider.rs`) -/

/-- `GooseMode` (`config.rs` of the host, as the adapter consumes it). -/
inductive GooseMode where
  | Auto
  | Approve
  | SmartApprove
  | Chat
deriving DecidableEq, Repr

/-- The `Permission` carried by a `PermissionConfirmation` (the principal
type is ignored by the adapter). -/
inductive Permission where
  | AlwaysAllow
  | AllowOnce
  | DenyOnce
  | AlwaysDeny
  | Cancel
deriving DecidableEq, Repr

/-- `permission_decision_from_confirmation` from `acp/provider.rs`. -/
def permission_decision_from_confirmation : Permission → PermissionDecision
  | Permission.AlwaysAllow => PermissionDecision.AllowAlways
  | Permission.AllowOnce => PermissionDecision.AllowOnce
  | Permission.DenyOnce => PermissionDecision.RejectOnce
  | Permission.AlwaysDeny => PermissionDecision.RejectAlways
  | Permission.Cancel => PermissionDecision.Cancel

/-- `permission_decision_from_mode` from `acp/provider.rs`. -/
def permission_decision_from_mode : GooseMode → Option PermissionDecision
  | GooseMode.Auto => some PermissionDecision.AllowOnce
  | GooseMode.Chat => some PermissionDecision.RejectOnce
  | GooseMode.Approve => none
  | GooseMode.SmartApprove => none

/-- `tool_call_content_to_text` from `acp/provider.rs`. -/
def tool_call_content_to_text (content : List ToolCallContent) : String :=
  String.intercalate "\n" (content.filterMap (fun c =>
    match c with
    | ToolCallContent.Content (ContentBlock.Text text) => some text
    | _ => none))

/-- `content_blocks_to_rmcp` from `acp/provider.rs` (an `rmcp` text content
value is modelled by its text). -/
def content_blocks_to_rmcp (content : List ToolCallContent) : List String :=
  content.filterMap (fun c =>
    match c with
    | ToolCallContent.Content (ContentBlock.Text text) => some text
    | _ => none)

/-- `build_action_required_message` from `acp/provider.rs`. -/
def build_action_required_message (request : RequestPermissionRequest) :
    Option Message :=
  let tool_title := request.fields.title.getD "Tool"
  let arguments := (request.fields.raw_input.bind Json.as_object).getD []
  let prompt := request.fields.content.bind (fun content =>
    content.findSome? (fun c =>
      match c with
      | ToolCallContent.Content (ContentBlock.Text text) => some text
      | _ => none))
  some ((Message.assistant.with_action_required request.tool_call_id tool_title
    arguments prompt).user_only)

/-- The loop body of `AcpProvider::stream`, run over the list of updates the
protocol task delivers for one turn. The mutable rejected-tool-calls set is
threaded explicitly; `confirm` is the external delivery of a pending
permission confirmation (`none` models a dropped waiter, which defaults to
`Cancel`). The result is the list of yielded messages, the terminal failure
if any, and the final rejected set. -/
def run_stream (goose_mode : GooseMode) (mapping : PermissionMapping)
    (confirm : String → Option Permission) (rejected : Finset String) :
    List AcpUpdate → List Message × Option ProviderError × Finset String
  | [] => ([], none, rejected)
  | AcpUpdate.Text text :: rest =>
      let r := run_stream goose_mode mapping confirm rejected rest
      (Message.assistant.with_text text :: r.1, r.2)
  | AcpUpdate.Thought text :: rest =>
      let r := run_stream goose_mode mapping confirm rejected rest
      (((Message.assistant.with_thinking text).with_visibility true false)
        :: r.1, r.2)
  | AcpUpdate.ToolCallStart id title raw_input :: rest =>
      let arguments := (raw_input.bind Json.as_object).getD []
      let r := run_stream goose_mode mapping confirm rejected rest
      (Message.assistant.with_tool_request id title arguments :: r.1, r.2)
  | AcpUpdate.ToolCallComplete id status content :: rest =>
      let result_text := tool_call_content_to_text content
      let step := tool_call_is_error rejected mapping id status
      let result_content :=
        if result_text = "" then content_blocks_to_rmcp content
        else [result_text]
      let r := run_stream goose_mode mapping confirm step.2 rest
      (Message.assistant.with_tool_response id step.1 result_content
        :: r.1, r.2)
  | AcpUpdate.PermissionRequest request :: rest =>
      match permission_decision_from_mode goose_mode with
      | some decision =>
          let step := permission_response mapping rejected request decision
          run_stream goose_mode mapping confirm step.2 rest
      | none =>
          let confirmation :=
            (confirm request.tool_call_id).getD Permission.Cancel
          let decision := permission_decision_from_confirmation confirmation
          let step := permission_response mapping rejected request decision
          let r := run_stream goose_mode mapping confirm step.2 rest
          (match build_action_required_message request with
           | some m => m :: r.1
           | none => r.1, r.2)
  | AcpUpdate.Complete _ :: _ => ([], none, rejected)
  | AcpUpdate.Error text :: _ =>
      ([], some (ProviderError.RequestFailed text), rejected)

/-! ### `complete_with_model` (`acp/provider.rs`) -/

/-- One item pulled from the message stream: a yielded `(message?, usage?)`
pair (the usage is never read) or a stream failure. -/
inductive StreamItem where
  | ok (msg : Option Message)
  | failed (e : ProviderError)
deriving DecidableEq, Repr

/-- The text content items of a message, concatenated (the inner loop of
`complete_with_model`). -/
def message_text (m : Message) : String :=
  String.join (m.content.filterMap (fun c =>
    match c with
    | MessageContent.Text text => some text
    | _ => none))

/-- The `text` accumulator of `complete_with_model` after draining the
stream. -/
def collect_text : List StreamItem → String
  | [] => ""
  | StreamItem.ok (some m) :: rest => message_text m ++ collect_text rest
  | _ :: rest => collect_text rest

/-- The `last_error` accumulator of `complete_with_model` after draining the
stream: the last failure the stream produced, if any. -/
def last_stream_error : List StreamItem → Option ProviderError
  | [] => none
  | StreamItem.failed e :: rest => some ((last_stream_error rest).getD e)
  | _ :: rest => last_stream_error rest

/-- `AcpProvider::complete_with_model` from `acp/provider.rs`, given the
drained stream items: concatenate the text, and fail only when none was
collected. The provider usage is modelled by the model name it carries. -/
def complete_with_model (model_name : String) (items : List StreamItem) :
    Except ProviderError (Message × String) :=
  let text := collect_text items
  if text = "" then
    Except.error
      (match last_stream_error items with
       | some e => classify_error e
       | none =>
           ProviderError.RequestFailed "No response received from ACP agent")
  else
    Except.ok (Message.assistant.with_text text, model_name)

/-! ### Session modes (`apply_session_mode` in `acp/provider.rs`) -/

/-- A session mode as `apply_session_mode` reads it: its id. -/
structure SessionMode where
  id : String
deriving DecidableEq, Repr

/-- `sacp::schema::SessionModeState` as the adapter reads it. -/
structure SessionModeState where
  current_mode_id : String
  available_modes : List SessionMode
deriving DecidableEq, Repr

/-- `sacp::schema::SessionModelState` as the adapter reads it. -/
structure SessionModelState where
  available_models : List String
deriving DecidableEq, Repr

/-- `sacp::schema::NewSessionResponse` as the adapter reads it. -/
structure NewSessionResponse where
  session_id : String
  modes : Option SessionModeState
  models : Option SessionModelState
deriving DecidableEq, Repr

/-- `apply_session_mode` from `acp/provider.rs`. The outcome of the
`set_session_mode` request, when one is sent, is supplied as
`set_mode_result`. The second component records whether that request was
sent. -/
def apply_session_mode (session_mode_id : Option String)
    (set_mode_result : Except String Unit) (session : NewSessionResponse) :
    Except String (String × Option SessionModelState) × Bool :=
  match session_mode_id with
  | none => (Except.ok (session.session_id, session.models), false)
  | some mode_id =>
    match session.modes with
    | none => (Except.error "ACP agent did not advertise SessionModeState",
        false)
    | some modes =>
      if modes.current_mode_id = mode_id then
        (Except.ok (session.session_id, session.models), false)
      else
        let available := modes.available_modes.map (fun m => m.id)
        if available.any (fun i => i = mode_id) then
          match set_mode_result with
          | Except.ok _ => (Except.ok (session.session_id, session.models),
              true)
          | Except.error e =>
              (Except.error ("ACP agent rejected session/set_mode: " ++ e),
                true)
        else
          (Except.error ("Requested mode '" ++ mode_id ++
            "' not offered by agent. Available modes: " ++
            String.intercalate ", " available), false)

/-! ### Pending confirmations (`handle_permission_confirmation`) -/

/-- `AcpProvider::handle_permission_confirmation` from `acp/provider.rs`.
The pending-confirmations `HashMap<String, oneshot::Sender<..>>` is modelled
as an association list from request id to a waiter token; the result is
whether a waiter was resolved, the updated map, and the waiter the
confirmation was delivered to. -/
def handle_permission_confirmation (pending : List (String × Nat))
    (request_id : String) : Bool × List (String × Nat) × Option Nat :=
  match pending.find? (fun p => decide (p.1 = request_id)) with
  | some p =>
      (true, pending.filter (fun q => ! decide (q.1 = request_id)), some p.2)
  | none => (false, pending, none)

/-- The first offered option of a given kind, by id: the kind-matching arm of
`select_option_id`, named for the specification-level reading. -/
def first_of_kind (options : List PermissionOption)
    (kind : PermissionOptionKind) : Option String :=
  (options.find? (fun opt => opt.kind = kind)).map (fun opt => opt.option_id)

/-- `map_permission_response` as §4.1 of the specification words it: cancel on
`Cancel`; otherwise select the configured preferred-id override iff it is
among the offered options (regardless of kind), else the first option of the
preferred kind, else the first option of the fallback kind. -/
def spec_map_permission_response (mapping : PermissionMapping)
    (request : RequestPermissionRequest) (decision : PermissionDecision) :
    RequestPermissionOutcome :=
  match decision with
  | PermissionDecision.Cancel => RequestPermissionOutcome.Cancelled
  | _ =>
    let by_kind :=
      (first_of_kind request.options (preferredKind decision)).orElse
        (fun _ => first_of_kind request.options (fallbackKind decision))
    let chosen :=
      match decisionPreferredId mapping decision with
      | some p => if p ∈ optionIds request then some p else by_kind
      | none => by_kind
    match chosen with
    | some id => RequestPermissionOutcome.Selected id
    | none => RequestPermissionOutcome.Cancelled

theorem select_option_id_none_spec (options : List PermissionOption)
    (kind : PermissionOptionKind) :
    select_option_id options none kind = first_of_kind options kind := rfl

theorem select_option_id_some_spec (options : List PermissionOption)
    (p : String) (kind : PermissionOptionKind) :
    select_option_id options (some p) kind =
      if p ∈ options.map (fun opt => opt.option_id) then some p
      else first_of_kind options kind := by
  unfold select_option_id first_of_kind
  by_cases hmem : p ∈ options.map (fun opt => opt.option_id)
  · have hany : (options.any fun opt => decide (opt.option_id = p)) = true := by
      rw [List.any_eq_true]
      rcases List.mem_map.mp hmem with ⟨opt, hopt, he⟩
      exact ⟨opt, hopt, by simp [he]⟩
    simp [hany, hmem]
  · have hany : (options.any fun opt => decide (opt.option_id = p)) = false := by
      rw [Bool.eq_false_iff]
      intro hc
      rcases List.any_eq_true.mp hc with ⟨opt, hopt, he⟩
      exact hmem (List.mem_map.mpr ⟨opt, hopt, of_decide_eq_true he⟩)
    simp [hany, hmem]

theorem first_of_kind_mem (options : List PermissionOption)
    (kind : PermissionOptionKind) (id : String)
    (h : first_of_kind options kind = some id) :
    id ∈ options.map (fun opt => opt.option_id) := by
  unfold first_of_kind at h
  rcases Option.map_eq_some'.mp h with ⟨opt, hfind, he⟩
  exact he ▸ List.mem_map_of_mem _ (List.mem_of_find?_eq_some hfind)

theorem select_option_id_mem (options : List PermissionOption)
    (pid : Option String) (kind : PermissionOptionKind) (id : String)
    (h : select_option_id options pid kind = some id) :
    id ∈ options.map (fun opt => opt.option_id) := by
  cases pid with
  | none =>
    rw [select_option_id_none_spec] at h
    exact first_of_kind_mem options kind id h
  | some p =>
    rw [select_option_id_some_spec] at h
    by_cases hmem : p ∈ options.map (fun opt => opt.option_id)
    · rw [if_pos hmem] at h
      cases h
      exact hmem
    · rw [if_neg hmem] at h
      exact first_of_kind_mem options kind id h

theorem first_of_kind_isSome (options : List PermissionOption)
    (kind : PermissionOptionKind)
    (h : ∃ opt ∈ options, opt.kind = kind) :
    (first_of_kind options kind).isSome = true := by
  unfold first_of_kind
  rw [Option.isSome_map']
  rw [List.find?_isSome]
  rcases h with ⟨opt, hopt, hk⟩
  exact ⟨opt, hopt, by simp [hk]⟩

theorem first_of_kind_eq_none (options : List PermissionOption)
    (kind : PermissionOptionKind)
    (h : ∀ opt ∈ options, opt.kind ≠ kind) :
    first_of_kind options kind = none := by
  unfold first_of_kind
  have : options.find? (fun opt => opt.kind = kind) = none := by
    rw [List.find?_eq_none]
    intro opt hopt
    simp [h opt hopt]
  simp [this]

/-- **C1.** Permission id resolution soundness: a non-Cancel decision with at
least one offered option of its preferred or fallback kind resolves to a
`Selected` outcome whose id is among the offered options; the `Cancel`
decision, or the absence of both a kind match and a matching preferred-id
override, yields `Cancelled`. -/
theorem permission_id_resolution_sound (mapping : PermissionMapping)
    (request : RequestPermissionRequest) :
    (∀ decision : PermissionDecision, decision ≠ PermissionDecision.Cancel →
      (∃ opt ∈ request.options,
        opt.kind = preferredKind decision ∨ opt.kind = fallbackKind decision) →
      ∃ id, map_permission_response mapping request decision =
          RequestPermissionOutcome.Selected id ∧ id ∈ optionIds request)
    ∧ map_permission_response mapping request PermissionDecision.Cancel =
        RequestPermissionOutcome.Cancelled
    ∧ (∀ decision : PermissionDecision, decision ≠ PermissionDecision.Cancel →
      (∀ opt ∈ request.options,
        opt.kind ≠ preferredKind decision ∧ opt.kind ≠ fallbackKind decision) →
      (∀ p, decisionPreferredId mapping decision = some p →
        p ∉ optionIds request) →
      map_permission_response mapping request decision =
        RequestPermissionOutcome.Cancelled) := by
  have hmain : ∀ pid : Option String,
      ∀ k1 k2 : PermissionOptionKind,
      (∃ opt ∈ request.options, opt.kind = k1 ∨ opt.kind = k2) →
      ∃ id, ((select_option_id request.options pid k1).orElse
          (fun _ => select_option_id request.options pid k2)) = some id ∧
        id ∈ optionIds request := by
    intro pid k1 k2 hex
    have hfk : ∀ k : PermissionOptionKind,
        select_option_id request.options pid k = none →
        first_of_kind request.options k = none := by
      intro k hk
      cases pid with
      | none => rw [select_option_id_none_spec] at hk; exact hk
      | some p =>
        rw [select_option_id_some_spec] at hk
        by_cases hmem : p ∈ request.options.map (fun opt => opt.option_id)
        · rw [if_pos hmem] at hk; exact absurd hk (by simp)
        · rw [if_neg hmem] at hk; exact hk
    rcases hsel : (select_option_id request.options pid k1) with _ | id
    · rcases hsel2 : (select_option_id request.options pid k2) with _ | id2
      · exfalso
        rcases hex with ⟨opt, hopt, hk | hk⟩
        · have := first_of_kind_isSome request.options k1 ⟨opt, hopt, hk⟩
          rw [hfk k1 hsel] at this
          simp at this
        · have := first_of_kind_isSome request.options k2 ⟨opt, hopt, hk⟩
          rw [hfk k2 hsel2] at this
          simp at this
      · refine ⟨id2, ?_, select_option_id_mem _ _ _ _ hsel2⟩
        simp [hsel, hsel2, Option.orElse]
    · refine ⟨id, ?_, select_option_id_mem _ _ _ _ hsel⟩
      simp [hsel, Option.orElse]
  have hnone : ∀ pid : Option String, ∀ k1 k2 : PermissionOptionKind,
      (∀ opt ∈ request.options, opt.kind ≠ k1 ∧ opt.kind ≠ k2) →
      (∀ p, pid = some p → p ∉ optionIds request) →
      ((select_option_id request.options pid k1).orElse
        (fun _ => select_option_id request.options pid k2)) = none := by
    intro pid k1 k2 hkinds hpid
    have h1 : select_option_id request.options pid k1 = none := by
      cases pid with
      | none =>
        rw [select_option_id_none_spec]
        exact first_of_kind_eq_none _ _ (fun opt h => (hkinds opt h).1)
      | some p =>
        rw [select_option_id_some_spec,
          if_neg (by simpa [optionIds] using hpid p rfl)]
        exact first_of_kind_eq_none _ _ (fun opt h => (hkinds opt h).1)
    have h2 : select_option_id request.options pid k2 = none := by
      cases pid with
      | none =>
        rw [select_option_id_none_spec]
        exact first_of_kind_eq_none _ _ (fun opt h => (hkinds opt h).2)
      | some p =>
        rw [select_option_id_some_spec,
          if_neg (by simpa [optionIds] using hpid p rfl)]
        exact first_of_kind_eq_none _ _ (fun opt h => (hkinds opt h).2)
    simp [h1, h2, Option.orElse]
  refine ⟨?_, by rfl, ?_⟩
  · intro decision hne hex
    cases decision with
    | Cancel => exact absurd rfl hne
    | AllowAlways =>
        rcases hmain mapping.allow_option_id PermissionOptionKind.AllowAlways
          PermissionOptionKind.AllowOnce
          (by simpa [preferredKind, fallbackKind] using hex) with ⟨id, hid, hmem⟩
        refine ⟨id, ?_, hmem⟩
        simp only [map_permission_response]
        rw [hid]
    | AllowOnce =>
        rcases hmain mapping.allow_option_id PermissionOptionKind.AllowOnce
          PermissionOptionKind.AllowAlways
          (by simpa [preferredKind, fallbackKind] using hex) with ⟨id, hid, hmem⟩
        refine ⟨id, ?_, hmem⟩
        simp only [map_permission_response]
        rw [hid]
    | RejectAlways =>
        rcases hmain mapping.reject_option_id PermissionOptionKind.RejectAlways
          PermissionOptionKind.RejectOnce
          (by simpa [preferredKind, fallbackKind] using hex) with ⟨id, hid, hmem⟩
        refine ⟨id, ?_, hmem⟩
        simp only [map_permission_response]
        rw [hid]
    | RejectOnce =>
        rcases hmain mapping.reject_option_id PermissionOptionKind.RejectOnce
          PermissionOptionKind.RejectAlways
          (by simpa [preferredKind, fallbackKind] using hex) with ⟨id, hid, hmem⟩
        refine ⟨id, ?_, hmem⟩
        simp only [map_permission_response]
        rw [hid]
  · intro decision hne hkinds hpid
    cases decision with
    | Cancel => exact absurd rfl hne
    | AllowAlways =>
        have h := hnone mapping.allow_option_id
          (preferredKind PermissionDecision.AllowAlways)
          (fallbackKind PermissionDecision.AllowAlways) hkinds
          (fun p hp => hpid p (by simpa [decisionPreferredId] using hp))
        simp only [preferredKind, fallbackKind] at h
        simp only [map_permission_response]
        rw [h]
    | AllowOnce =>
        have h := hnone mapping.allow_option_id
          (preferredKind PermissionDecision.AllowOnce)
          (fallbackKind PermissionDecision.AllowOnce) hkinds
          (fun p hp => hpid p (by simpa [decisionPreferredId] using hp))
        simp only [preferredKind, fallbackKind] at h
        simp only [map_permission_response]
        rw [h]
    | RejectAlways =>
        have h := hnone mapping.reject_option_id
          (preferredKind PermissionDecision.RejectAlways)
          (fallbackKind PermissionDecision.RejectAlways) hkinds
          (fun p hp => hpid p (by simpa [decisionPreferredId] using hp))
        simp only [preferredKind, fallbackKind] at h
        simp only [map_permission_response]
        rw [h]
    | RejectOnce =>
        have h := hnone mapping.reject_option_id
          (preferredKind PermissionDecision.RejectOnce)
          (fallbackKind PermissionDecision.RejectOnce) hkinds
          (fun p hp => hpid p (by simpa [decisionPreferredId] using hp))
        simp only [preferredKind, fallbackKind] at h
        simp only [map_permission_response]
        rw [h]

/-- A one-option permission request used to instantiate hypotheses. -/
def sampleRequest : RequestPermissionRequest :=
  { tool_call_id := "t1"
    fields := { status := none, content := none, title := none
                raw_input := none }
    options := [{ option_id := "allow_once"
                  kind := PermissionOptionKind.AllowOnce }] }

/-- **C1 witness**: the soundness theorem applied to a concrete request. -/
theorem permission_id_resolution_sound_witness :
    (∃ id, map_permission_response PermissionMapping.default sampleRequest
        PermissionDecision.AllowOnce = RequestPermissionOutcome.Selected id ∧
      id ∈ optionIds sampleRequest) ∧
    map_permission_response PermissionMapping.default sampleRequest
        PermissionDecision.Cancel = RequestPermissionOutcome.Cancelled :=
  ⟨(permission_id_resolution_sound PermissionMapping.default sampleRequest).1
      PermissionDecision.AllowOnce (by decide)
      ⟨{ option_id := "allow_once", kind := PermissionOptionKind.AllowOnce },
        by decide, Or.inl rfl⟩,
    (permission_id_resolution_sound PermissionMapping.default sampleRequest).2.1⟩

theorem orElse_select_spec (options : List PermissionOption)
    (pid : Option String) (k1 k2 : PermissionOptionKind) :
    ((select_option_id options pid k1).orElse
        (fun _ => select_option_id options pid k2)) =
      match pid with
      | some p =>
          if p ∈ options.map (fun opt => opt.option_id) then some p
          else (first_of_kind options k1).orElse
            (fun _ => first_of_kind options k2)
      | none =>
          (first_of_kind options k1).orElse
            (fun _ => first_of_kind options k2) := by
  cases pid with
  | none => rw [select_option_id_none_spec, select_option_id_none_spec]
  | some p =>
    by_cases hmem : p ∈ options.map (fun opt => opt.option_id)
    · rw [select_option_id_some_spec, if_pos hmem]
      simp [Option.orElse, hmem]
    · rw [select_option_id_some_spec, if_neg hmem,
        select_option_id_some_spec, if_neg hmem]
      simp [hmem]

/-- **C2.** Permission option selection precedence: `map_permission_response`
computes exactly the specification-level procedure — preferred-id override
iff present among the offered options (regardless of kind), else first
option of the preferred kind, else first option of the fallback kind, with
`Cancel` mapping to `Cancelled`. -/
theorem map_permission_response_precedence (mapping : PermissionMapping)
    (request : RequestPermissionRequest) (decision : PermissionDecision) :
    map_permission_response mapping request decision =
      spec_map_permission_response mapping request decision := by
  cases decision with
  | Cancel => rfl
  | AllowAlways =>
      simp only [map_permission_response, spec_map_permission_response,
        decisionPreferredId, preferredKind, fallbackKind, optionIds]
      rw [orElse_select_spec]
  | AllowOnce =>
      simp only [map_permission_response, spec_map_permission_response,
        decisionPreferredId, preferredKind, fallbackKind, optionIds]
      rw [orElse_select_spec]
  | RejectAlways =>
      simp only [map_permission_response, spec_map_permission_response,
        decisionPreferredId, preferredKind, fallbackKind, optionIds]
      rw [orElse_select_spec]
  | RejectOnce =>
      simp only [map_permission_response, spec_map_permission_response,
        decisionPreferredId, preferredKind, fallbackKind, optionIds]
      rw [orElse_select_spec]

/-- **C3.** `is_error` computation: the flag `tool_call_is_error` attaches is
true exactly when the status is `Failed`, or the status is `Completed`, the
tool call was previously rejected, and the configured rejected-tool status is
`Completed`. -/
theorem tool_call_is_error_table (rejected : Finset String)
    (mapping : PermissionMapping) (t : String) (s : ToolCallStatus) :
    (tool_call_is_error rejected mapping t s).1 = true ↔
      (s = ToolCallStatus.Failed ∨
        (s = ToolCallStatus.Completed ∧ t ∈ rejected ∧
          mapping.rejected_tool_status = ToolCallStatus.Completed)) := by
  cases s <;> simp [tool_call_is_error]

/-- **C4.** Rejection bookkeeping: a decision records a rejection iff it is
`RejectOnce`, `RejectAlways` or `Cancel`; answering a permission request with
a rejecting decision puts the request's tool-call id into the rejected set
(and a non-rejecting one leaves the set unchanged); processing a
`ToolCallComplete` for an id removes it (so a second completion no longer
observes it); and the id stays in the set across any sequence of events that
contains no `ToolCallComplete` for it. -/
theorem rejection_bookkeeping (mapping : PermissionMapping) :
    (∀ d : PermissionDecision, d.should_record_rejection = true ↔
      (d = PermissionDecision.RejectOnce ∨ d = PermissionDecision.RejectAlways ∨
        d = PermissionDecision.Cancel))
    ∧ (∀ (rejected : Finset String) (request : RequestPermissionRequest)
        (d : PermissionDecision), d.should_record_rejection = true →
        request.tool_call_id ∈
          rejected_step mapping rejected
            (AdapterEvent.permissionAnswered request d))
    ∧ (∀ (rejected : Finset String) (request : RequestPermissionRequest)
        (d : PermissionDecision), d.should_record_rejection = false →
        rejected_step mapping rejected
          (AdapterEvent.permissionAnswered request d) = rejected)
    ∧ (∀ (rejected : Finset String) (t : String) (s : ToolCallStatus),
        t ∉ rejected_step mapping rejected (AdapterEvent.toolCallComplete t s))
    ∧ (∀ (rejected : Finset String) (t : String) (events : List AdapterEvent),
        t ∈ rejected →
        (∀ s : ToolCallStatus, AdapterEvent.toolCallComplete t s ∉ events) →
        t ∈ rejected_run mapping rejected events) := by
  refine ⟨?_, ?_, ?_, ?_, ?_⟩
  · intro d
    cases d <;> simp [PermissionDecision.should_record_rejection]
  · intro rejected request d hd
    simp [rejected_step, permission_response, hd]
  · intro rejected request d hd
    simp [rejected_step, permission_response, hd]
  · intro rejected t s
    simp [rejected_step, tool_call_is_error]
  · intro rejected t events
    induction events generalizing rejected with
    | nil =>
      intro h _
      simpa [rejected_run] using h
    | cons e rest ih =>
      intro h hno
      have hstep : t ∈ rejected_step mapping rejected e := by
        cases e with
        | permissionAnswered request d =>
          by_cases hd : d.should_record_rejection
          · simp [rejected_step, permission_response, hd,
              Finset.mem_insert, h]
          · simp only [Bool.not_eq_true] at hd
            simp [rejected_step, permission_response, hd, h]
        | toolCallComplete id status =>
          have hne : t ≠ id := by
            intro he
            exact hno status (he ▸ List.mem_cons_self _ _)
          simp [rejected_step, tool_call_is_error, Finset.mem_erase, h, hne]
      have hrest : ∀ s : ToolCallStatus,
          AdapterEvent.toolCallComplete t s ∉ rest := fun s hs =>
        hno s (List.mem_cons_of_mem _ hs)
      simpa [rejected_run] using
        ih (rejected_step mapping rejected e) hstep hrest

/-- **C4 witness**: the bookkeeping theorem applied at concrete inputs: a
`RejectOnce` answer for `sampleRequest` records `"t1"`, a completion removes
it, and it persists across unrelated events. -/
theorem rejection_bookkeeping_witness :
    "t1" ∈ rejected_step PermissionMapping.default ∅
        (AdapterEvent.permissionAnswered sampleRequest
          PermissionDecision.RejectOnce) ∧
    "t1" ∉ rejected_step PermissionMapping.default {"t1"}
        (AdapterEvent.toolCallComplete "t1" ToolCallStatus.Completed) ∧
    "t1" ∈ rejected_run PermissionMapping.default {"t1"}
        [AdapterEvent.toolCallComplete "t2" ToolCallStatus.Completed] :=
  ⟨(rejection_bookkeeping PermissionMapping.default).2.1 ∅ sampleRequest
      PermissionDecision.RejectOnce (by decide),
    (rejection_bookkeeping PermissionMapping.default).2.2.2.1 {"t1"} "t1"
      ToolCallStatus.Completed,
    (rejection_bookkeeping PermissionMapping.default).2.2.2.2 {"t1"} "t1"
      [AdapterEvent.toolCallComplete "t2" ToolCallStatus.Completed]
      (by simp)
      (by
        intro s hs
        simp at hs)⟩

/-- **C5.** Update translation: text-bearing message and thought chunks map to
`Text` and `Thought`, a tool call maps to `ToolCallStart` with the peer's id,
title and raw input, a tool-call update yields `ToolCallComplete` exactly
when its status field is set (content defaulting to the empty list), every
other update is dropped, and translating a sequence is order-preserving
(a homomorphism for concatenation). -/
theorem update_translation :
    (∀ t, translate_notification
        (SessionUpdate.AgentMessageChunk (ContentBlock.Text t)) =
      some (AcpUpdate.Text t))
    ∧ (∀ t, translate_notification
        (SessionUpdate.AgentThoughtChunk (ContentBlock.Text t)) =
      some (AcpUpdate.Thought t))
    ∧ (∀ id title raw, translate_notification
        (SessionUpdate.ToolCall id title raw) =
      some (AcpUpdate.ToolCallStart id title raw))
    ∧ (∀ id fields, (translate_notification
        (SessionUpdate.ToolCallUpdate id fields)).isSome = fields.status.isSome)
    ∧ (∀ id s content title raw, translate_notification
        (SessionUpdate.ToolCallUpdate id
          { status := some s, content := content, title := title
            raw_input := raw }) =
      some (AcpUpdate.ToolCallComplete id s (content.getD [])))
    ∧ translate_notification
        (SessionUpdate.AgentMessageChunk ContentBlock.NonText) = none
    ∧ translate_notification
        (SessionUpdate.AgentThoughtChunk ContentBlock.NonText) = none
    ∧ translate_notification SessionUpdate.OtherUpdate = none
    ∧ (∀ xs ys, translate_notifications (xs ++ ys) =
        translate_notifications xs ++ translate_notifications ys) := by
  refine ⟨fun t => rfl, fun t => rfl, fun id title raw => rfl, ?_,
    fun id s content title raw => rfl, rfl, rfl, rfl, ?_⟩
  · intro id fields
    rcases fields with ⟨status, content, title, raw⟩
    cases status <;> rfl
  · intro xs ys
    simp [translate_notifications, List.filterMap_append]

/-- **C6 counterexample**: an `Error` event whose text mentions "context
window" terminates the stream with the request-failed kind, not the
context-length-exceeded kind — the stream does not classify error texts. -/
theorem stream_error_classification_counterexample :
    (run_stream GooseMode.Auto PermissionMapping.default (fun _ => none) ∅
        [AcpUpdate.Error "context window exceeded"]).2.1 =
      some (ProviderError.RequestFailed "context window exceeded") ∧
    ProviderError.isContextLengthExceeded
        (ProviderError.RequestFailed "context window exceeded") = false ∧
    contains_substr "context window exceeded" "context window" = true := by
  refine ⟨rfl, rfl, by decide⟩

/-- **C6 (amended).** When a turn terminates with an `Error(text)` event the
stream always fails with the request-failed kind carrying `text` verbatim;
the mapping of texts containing "context window", "too long" or "too many
tokens" to the context-length-exceeded kind is performed by `classify_error`
(applied in `complete_with_model`), not by the stream itself. -/
theorem stream_error_classification_amended (goose_mode : GooseMode)
    (mapping : PermissionMapping) (confirm : String → Option Permission)
    (rejected : Finset String) (text : String) (rest : List AcpUpdate) :
    (run_stream goose_mode mapping confirm rejected
        (AcpUpdate.Error text :: rest)).2.1 =
      some (ProviderError.RequestFailed text)
    ∧ ((contains_substr text "context window"
        || contains_substr text "too long"
        || contains_substr text "too many tokens") = true →
        classify_error (ProviderError.RequestFailed text) =
          ProviderError.ContextLengthExceeded text)
    ∧ ((contains_substr text "context window"
        || contains_substr text "too long"
        || contains_substr text "too many tokens") = false →
        classify_error (ProviderError.RequestFailed text) =
          ProviderError.RequestFailed text) := by
  refine ⟨rfl, ?_, ?_⟩
  · intro h
    simp only [classify_error, ProviderError.message]
    rw [if_pos h]
  · intro h
    simp only [classify_error, ProviderError.message]
    rw [if_neg (by simp [h])]

/-- **C6 witness**: the amended theorem applied at concrete texts. -/
theorem stream_error_classification_amended_witness :
    classify_error (ProviderError.RequestFailed "context window exceeded") =
        ProviderError.ContextLengthExceeded "context window exceeded" ∧
    classify_error (ProviderError.RequestFailed "boom") =
        ProviderError.RequestFailed "boom" :=
  ⟨(stream_error_classification_amended GooseMode.Auto
      PermissionMapping.default (fun _ => none) ∅
      "context window exceeded" []).2.1 (by decide),
    (stream_error_classification_amended GooseMode.Auto
      PermissionMapping.default (fun _ => none) ∅ "boom" []).2.2 (by decide)⟩

/-- The predicate `messages_to_prompt` searches with. -/
def is_last_user_pred (m : Message) : Bool :=
  decide (m.role = Role.User) && m.is_agent_visible

/-- The text parts of a message, projected to prompt content blocks. -/
def message_text_blocks (m : Message) : List ContentBlock :=
  m.content.filterMap (fun c =>
    match c with
    | MessageContent.Text text => some (text_content text)
    | _ => none)

/-- **C7.** Prompt projection: when no user-role agent-visible message exists
the prompt is empty, and when the message list splits as `pre ++ m :: post`
with `m` user-role and agent-visible and no such message after it, the prompt
is exactly the text parts of `m`, in order — everything else is omitted. -/
theorem prompt_projection (messages : List Message) :
    ((∀ m ∈ messages,
        ¬(m.role = Role.User ∧ m.is_agent_visible = true)) →
      messages_to_prompt messages = [])
    ∧ (∀ (pre post : List Message) (m : Message),
        messages = pre ++ m :: post →
        m.role = Role.User → m.is_agent_visible = true →
        (∀ m2 ∈ post,
          ¬(m2.role = Role.User ∧ m2.is_agent_visible = true)) →
        messages_to_prompt messages = message_text_blocks m) := by
  constructor
  · intro hnone
    unfold messages_to_prompt
    have hfind : messages.reverse.find? (fun m =>
        decide (m.role = Role.User) && m.is_agent_visible) = none := by
      rw [List.find?_eq_none]
      intro x hx
      have hxm := List.mem_reverse.mp hx
      simp only [Bool.and_eq_true, decide_eq_true_eq]
      exact fun hc => hnone x hxm hc
    rw [hfind]
  · intro pre post m hmsg hrole hvis hpost
    subst hmsg
    unfold messages_to_prompt
    have hrev : (pre ++ m :: post).reverse =
        post.reverse ++ m :: pre.reverse := by
      simp [List.reverse_append]
    rw [hrev]
    have hnone : post.reverse.find? (fun mm =>
        decide (mm.role = Role.User) && mm.is_agent_visible) = none := by
      rw [List.find?_eq_none]
      intro x hx
      have hxm := List.mem_reverse.mp hx
      simp only [Bool.and_eq_true, decide_eq_true_eq]
      exact fun hc => hpost x hxm hc
    rw [List.find?_append, hnone, Option.none_or,
      List.find?_cons_of_pos _ (by simp [hrole, hvis])]
    rfl

/-- **C7 witness**: the projection theorem applied to a concrete
conversation: an older user message, the latest agent-visible user message
with a text and an image part, and a trailing assistant message. -/
theorem prompt_projection_witness :
    messages_to_prompt
        [{ role := Role.User, user_visible := true, agent_visible := true
           content := [MessageContent.Text "old"] },
         { role := Role.User, user_visible := true, agent_visible := true
           content := [MessageContent.Text "hi", MessageContent.NonText] },
         { role := Role.Assistant, user_visible := true, agent_visible := true
           content := [MessageContent.Text "yo"] }] =
      [ContentBlock.Text "hi"] :=
  (prompt_projection _).2
    [{ role := Role.User, user_visible := true, agent_visible := true
       content := [MessageContent.Text "old"] }]
    [{ role := Role.Assistant, user_visible := true, agent_visible := true
       content := [MessageContent.Text "yo"] }]
    { role := Role.User, user_visible := true, agent_visible := true
      content := [MessageContent.Text "hi", MessageContent.NonText] }
    rfl rfl rfl
    (by
      intro m2 hm2
      simp at hm2
      subst hm2
      simp)

/-- **C8.** Session-mode handling on `new_session`: a configured mode that
differs from the session's current mode and is not among the advertised
modes fails the request with an error naming the offered modes without
sending a set-mode request; a configured mode equal to the current mode
sends no set-mode request and returns the session successfully. -/
theorem session_mode_handling (mode_id : String)
    (set_mode_result : Except String Unit) (session : NewSessionResponse)
    (modes : SessionModeState) :
    (session.modes = some modes →
      modes.current_mode_id ≠ mode_id →
      mode_id ∉ modes.available_modes.map (fun m => m.id) →
      apply_session_mode (some mode_id) set_mode_result session =
        (Except.error ("Requested mode '" ++ mode_id ++
          "' not offered by agent. Available modes: " ++
          String.intercalate ", "
            (modes.available_modes.map (fun m => m.id))), false))
    ∧ (session.modes = some modes →
      modes.current_mode_id = mode_id →
      apply_session_mode (some mode_id) set_mode_result session =
        (Except.ok (session.session_id, session.models), false)) := by
  constructor
  · intro hm hne hnot
    have hany : ((modes.available_modes.map (fun m => m.id)).any
        (fun i => decide (i = mode_id))) = false := by
      rw [Bool.eq_false_iff]
      intro hc
      rcases List.any_eq_true.mp hc with ⟨i, hi, he⟩
      have he2 : i = mode_id := of_decide_eq_true he
      exact hnot (he2 ▸ hi)
    simp only [apply_session_mode, hm]
    rw [if_neg hne, if_neg (by simp [hany])]
  · intro hm heq
    simp only [apply_session_mode, hm]
    rw [if_pos heq]

/-- A session whose peer advertised modes `code` (current) and `plan`. -/
def sampleModes : SessionModeState :=
  { current_mode_id := "code"
    available_modes := [{ id := "code" }, { id := "plan" }] }

/-- A `new_session` response offering `sampleModes`. -/
def sampleSession : NewSessionResponse :=
  { session_id := "s1", modes := some sampleModes, models := none }

/-- **C8 witness**: the mode-handling theorem applied to `sampleSession`. -/
theorem session_mode_handling_witness :
    apply_session_mode (some "yolo") (Except.ok ()) sampleSession =
      (Except.error ("Requested mode '" ++ "yolo" ++
        "' not offered by agent. Available modes: " ++
        String.intercalate ", "
          (sampleModes.available_modes.map (fun m => m.id))), false) ∧
    apply_session_mode (some "code") (Except.ok ()) sampleSession =
      (Except.ok (sampleSession.session_id, sampleSession.models), false) :=
  ⟨(session_mode_handling "yolo" (Except.ok ()) sampleSession sampleModes).1
      rfl (by decide) (by decide),
    (session_mode_handling "code" (Except.ok ()) sampleSession sampleModes).2
      rfl rfl⟩

/-- **C9.** `handle_permission_confirmation` resolves a waiter iff one is
keyed by the request id: it returns true exactly when an entry exists, the
delivered waiter is one that was keyed by the request id, a call that
returns false leaves the pending map unchanged, the request id is absent
from the resulting map, and a repeated call with the same request id
returns false. -/
theorem handle_permission_confirmation_spec (pending : List (String × Nat))
    (request_id : String) :
    ((handle_permission_confirmation pending request_id).1 = true ↔
      ∃ w, (request_id, w) ∈ pending)
    ∧ (∀ w, (handle_permission_confirmation pending request_id).2.2 = some w →
        (request_id, w) ∈ pending)
    ∧ ((handle_permission_confirmation pending request_id).1 = false →
        (handle_permission_confirmation pending request_id).2.1 = pending)
    ∧ (∀ w, (request_id, w) ∉
        (handle_permission_confirmation pending request_id).2.1)
    ∧ (handle_permission_confirmation
        (handle_permission_confirmation pending request_id).2.1
          request_id).1 = false := by
  rcases hf : pending.find? (fun p => decide (p.1 = request_id)) with _ | p
  · have habsent : ∀ w, (request_id, w) ∉ pending := by
      intro w hw
      have := List.find?_eq_none.mp hf _ hw
      simp at this
    have hh : handle_permission_confirmation pending request_id =
        (false, pending, none) := by
      simp only [handle_permission_confirmation, hf]
    refine ⟨?_, ?_, ?_, ?_, ?_⟩
    · constructor
      · intro hc
        rw [hh] at hc
        simp at hc
      · rintro ⟨w, hw⟩
        exact absurd hw (habsent w)
    · intro w hw
      rw [hh] at hw
      simp at hw
    · intro _
      rw [hh]
    · intro w hw
      rw [hh] at hw
      exact habsent w hw
    · rw [hh]
      show (handle_permission_confirmation pending request_id).1 = false
      rw [hh]
  · have hp1 : p.1 = request_id := by
      have := List.find?_some hf
      simpa using this
    have hpmem : p ∈ pending := List.mem_of_find?_eq_some hf
    have hfilter : ∀ w, (request_id, w) ∉
        pending.filter (fun q => ! decide (q.1 = request_id)) := by
      intro w hw
      have := (List.mem_filter.mp hw).2
      simp at this
    have hh : handle_permission_confirmation pending request_id =
        (true, pending.filter (fun q => ! decide (q.1 = request_id)),
          some p.2) := by
      simp only [handle_permission_confirmation, hf]
    refine ⟨?_, ?_, ?_, ?_, ?_⟩
    · rw [hh]
      simp only [true_iff]
      exact ⟨p.2, by rw [← hp1]; exact hpmem⟩
    · intro w hw
      rw [hh] at hw
      simp at hw
      rw [← hw, ← hp1]
      exact hpmem
    · intro hfalse
      rw [hh] at hfalse
      simp at hfalse
    · intro w hw
      rw [hh] at hw
      exact hfilter w hw
    · rw [hh]
      have hnone : (pending.filter
          (fun q => ! decide (q.1 = request_id))).find?
            (fun q => decide (q.1 = request_id)) = none := by
        rw [List.find?_eq_none]
        intro x hx
        have := (List.mem_filter.mp hx).2
        simp at this
        simp [this]
      show (handle_permission_confirmation
        (pending.filter (fun q => ! decide (q.1 = request_id)))
          request_id).1 = false
      simp only [handle_permission_confirmation, hnone]

/-- **C9 witness**: the confirmation-delivery theorem applied to a concrete
pending map. -/
theorem handle_permission_confirmation_witness :
    (handle_permission_confirmation [("t1", 7)] "t1").1 = true ∧
    (handle_permission_confirmation [("t1", 7)] "t2").2.1 = [("t1", 7)] ∧
    (handle_permission_confirmation
      (handle_permission_confirmation [("t1", 7)] "t1").2.1 "t1").1 = false :=
  ⟨(handle_permission_confirmation_spec [("t1", 7)] "t1").1.mpr
      ⟨7, by simp⟩,
    (handle_permission_confirmation_spec [("t1", 7)] "t2").2.2.1 (by decide),
    (handle_permission_confirmation_spec [("t1", 7)] "t1").2.2.2.2⟩

/-- **C10 counterexample**: the drained stream yields a message that contains
a text content item (with empty text), yet `complete_with_model` does not
succeed — it fails with "No response received from ACP agent" because the
concatenated text is empty. -/
theorem complete_text_masking_counterexample :
    MessageContent.Text "" ∈ (Message.assistant.with_text "").content ∧
    complete_with_model "model"
        [StreamItem.ok (some (Message.assistant.with_text ""))] =
      Except.error
        (ProviderError.RequestFailed "No response received from ACP agent") :=
  ⟨by simp [Message.assistant, Message.with_text], rfl⟩

/-- **C10 (amended).** `complete_with_model` keys on the concatenated text:
when the collected text is nonempty it is returned as a single assistant
message and the call succeeds even if the stream also produced an error;
when it is empty the call fails with the last stream error classified for
context length, or with a request-failed "No response received from ACP
agent" when the stream produced no error. -/
theorem complete_error_masking (model_name : String)
    (items : List StreamItem) :
    (collect_text items ≠ "" →
      complete_with_model model_name items =
        Except.ok (Message.assistant.with_text (collect_text items),
          model_name))
    ∧ (∀ e, collect_text items = "" → last_stream_error items = some e →
      complete_with_model model_name items = Except.error (classify_error e))
    ∧ (collect_text items = "" → last_stream_error items = none →
      complete_with_model model_name items =
        Except.error
          (ProviderError.RequestFailed
            "No response received from ACP agent")) := by
  refine ⟨?_, ?_, ?_⟩
  · intro h
    simp only [complete_with_model]
    rw [if_neg h]
  · intro e h he
    simp only [complete_with_model]
    rw [if_pos h, he]
  · intro h he
    simp only [complete_with_model]
    rw [if_pos h, he]

/-- **C10 witness**: the amended theorem applied to concrete drained
streams: text plus an error succeeds with the text, a lone context-window
error is classified, and an empty stream reports no response. -/
theorem complete_error_masking_witness :
    complete_with_model "m"
        [StreamItem.ok (some (Message.assistant.with_text "hi")),
          StreamItem.failed (ProviderError.RequestFailed "boom")] =
      Except.ok (Message.assistant.with_text "hi", "m") ∧
    complete_with_model "m"
        [StreamItem.failed
          (ProviderError.RequestFailed "context window full")] =
      Except.error
        (ProviderError.ContextLengthExceeded "context window full") ∧
    complete_with_model "m" [] =
      Except.error
        (ProviderError.RequestFailed "No response received from ACP agent") := by
  refine ⟨?_, ?_, ?_⟩
  · have h := (complete_error_masking "m"
        [StreamItem.ok (some (Message.assistant.with_text "hi")),
          StreamItem.failed (ProviderError.RequestFailed "boom")]).1
      (by decide)
    rw [show collect_text
        [StreamItem.ok (some (Message.assistant.with_text "hi")),
          StreamItem.failed (ProviderError.RequestFailed "boom")] = "hi"
      from by decide] at h
    exact h
  · have h := (complete_error_masking "m"
        [StreamItem.failed
          (ProviderError.RequestFailed "context window full")]).2.1
      (ProviderError.RequestFailed "context window full") (by decide)
      (by decide)
    rw [show classify_error
        (ProviderError.RequestFailed "context window full") =
        ProviderError.ContextLengthExceeded "context window full"
      from by decide] at h
    exact h
  · exact (complete_error_masking "m" []).2.2 rfl rfl

end AcpSpec
